import Mathlib

/-!
Verification development for the Reports page of the SOFTENG inventory
dashboard (src/src/pages/Reports.tsx).

The page reads an immutable snapshot of products and stock transactions,
derives four fixed-shape CSV reports (inventory, low stock, transaction
history, valuation), serializes them as CSV text and triggers a client-side
download.  We embed that logic shallowly:

* JS numbers are modelled exactly: integer-valued fields (quantity,
  reorderLevel) as ℤ, monetary fields as ℚ.  The two-decimal formatting
  `Number.prototype.toFixed(2)` is modelled as round-half-up to hundredths
  followed by decimal printing; for non-negative amounts this agrees with
  the JS result on exactly representable inputs (binary floating point
  noise on non-representable inputs is outside the model).
* A report row is the ordered key/value list of the object literal built by
  the source; iteration order of object keys is insertion order, which the
  list order captures.
* The DOM side effects of `downloadCSV` (blob, anchor click, toasts) are
  reified as a pure outcome record: the produced file, if any, and the
  toast messages emitted, in order.  The current date string used in the
  file name, and the locale date-time formatter used by the transaction
  report, are explicit parameters.
-/

/-- A cell value of a report row: the source stores strings and JS numbers
in its row object literals; numbers that are always integral are kept as ℤ,
the two raw monetary cells of the inventory report as ℚ. -/
inductive Val where
  | s : String → Val
  | i : ℤ → Val
  | q : ℚ → Val
deriving DecidableEq

/-- A report row: the ordered key/value pairs of the object literal built
for one record (JS object-literal keys iterate in insertion order). -/
abbrev Row := List (String × Val)

/-- Product record, after the `Product` type used by the page: `supplier`
is the one optional field the page reads. -/
structure Product where
  sku : String
  name : String
  categoryName : String
  quantity : ℤ
  unit : String
  unitCost : ℚ
  sellingPrice : ℚ
  reorderLevel : ℤ
  location : String
  supplier : Option String
  status : String
deriving DecidableEq

/-- Stock transaction record, after the `StockTransaction` type used by the
page; `transactionDate` is the epoch timestamp fed to `new Date`. -/
structure StockTransaction where
  transactionDate : ℤ
  productName : String
  transactionType : String
  quantity : ℤ
  userName : String
  reason : Option String
deriving DecidableEq

/-- Models the JS expression `x || d` for an optional string `x`: both an
absent value and the empty string are falsy, so both fall back to `d`. -/
def jsOr (x : Option String) (d : String) : String :=
  match x with
  | none => d
  | some v => if v = "" then d else v

/-- The integer number of hundredths that `toFixed(2)` displays: round half
up at the third decimal. -/
def round2 (x : ℚ) : ℤ := ⌊100 * x + 1 / 2⌋

/-- Exactly two decimal digits for a remainder `k < 100`, zero padded, as
`toFixed(2)` prints the fractional part. -/
def pad2 (k : ℕ) : String := String.mk [Nat.digitChar (k / 10), Nat.digitChar (k % 10)]

/-- Models `x.toFixed(2)`: sign, integer part, dot, exactly two decimals. -/
def toFixed2 (x : ℚ) : String :=
  (if round2 x < 0 then "-" else "")
    ++ Nat.repr ((round2 x).natAbs / 100) ++ "." ++ pad2 ((round2 x).natAbs % 100)

/-- Row of the complete inventory report (`generateInventoryReport`). -/
def inventoryRow (p : Product) : Row :=
  [ ("SKU", .s p.sku)
  , ("Name", .s p.name)
  , ("Category", .s p.categoryName)
  , ("Quantity", .i p.quantity)
  , ("Unit", .s p.unit)
  , ("Unit Cost", .q p.unitCost)
  , ("Selling Price", .q p.sellingPrice)
  , ("Total Value", .s (toFixed2 ((p.quantity : ℚ) * p.unitCost)))
  , ("Reorder Level", .i p.reorderLevel)
  , ("Location", .s p.location)
  , ("Status", .s p.status) ]

/-- The inventory report rows: one row per product, no filtering. -/
def inventoryReport (products : List Product) : List Row :=
  products.map inventoryRow

/-- The low-stock filter of `generateLowStockReport`. -/
def lowStockPred (p : Product) : Bool :=
  p.quantity ≤ p.reorderLevel && p.status = "Active"

/-- Row of the low-stock report. -/
def lowStockRow (p : Product) : Row :=
  [ ("SKU", .s p.sku)
  , ("Name", .s p.name)
  , ("Category", .s p.categoryName)
  , ("Current Quantity", .i p.quantity)
  , ("Reorder Level", .i p.reorderLevel)
  , ("Units Below Reorder", .i (p.reorderLevel - p.quantity))
  , ("Location", .s p.location)
  , ("Supplier", .s (jsOr p.supplier "N/A")) ]

/-- The low-stock report rows: filter, then map. -/
def lowStockReport (products : List Product) : List Row :=
  (products.filter lowStockPred).map lowStockRow

/-- Row of the transaction report; `fmt` stands for the locale dependent
`new Date(d).toLocaleString()`. -/
def transactionRow (fmt : ℤ → String) (tx : StockTransaction) : Row :=
  [ ("Date", .s (fmt tx.transactionDate))
  , ("Product", .s tx.productName)
  , ("Type", .s tx.transactionType)
  , ("Quantity", .i tx.quantity)
  , ("User", .s tx.userName)
  , ("Reason", .s (jsOr tx.reason "N/A")) ]

/-- The transaction report rows: one per transaction, no filtering. -/
def transactionReport (fmt : ℤ → String) (txs : List StockTransaction) : List Row :=
  txs.map (transactionRow fmt)

/-- Per-product row of the valuation report. -/
def valuationRow (p : Product) : Row :=
  [ ("SKU", .s p.sku)
  , ("Name", .s p.name)
  , ("Category", .s p.categoryName)
  , ("Quantity", .i p.quantity)
  , ("Unit Cost", .s (toFixed2 p.unitCost))
  , ("Stock Value", .s (toFixed2 ((p.quantity : ℚ) * p.unitCost)))
  , ("Potential Revenue", .s (toFixed2 ((p.quantity : ℚ) * p.sellingPrice)))
  , ("Potential Profit", .s (toFixed2 ((p.quantity : ℚ) * (p.sellingPrice - p.unitCost)))) ]

/-- `totalValue` of `generateValuationReport`: a left fold, as `reduce`. -/
def totalStockValue (products : List Product) : ℚ :=
  products.foldl (fun sum p => sum + (p.quantity : ℚ) * p.unitCost) 0

/-- `totalRevenue` of `generateValuationReport`. -/
def totalStockRevenue (products : List Product) : ℚ :=
  products.foldl (fun sum p => sum + (p.quantity : ℚ) * p.sellingPrice) 0

/-- The synthetic trailing row pushed by `generateValuationReport`. -/
def totalRow (products : List Product) : Row :=
  [ ("SKU", .s "TOTAL")
  , ("Name", .s "")
  , ("Category", .s "")
  , ("Quantity", .i 0)
  , ("Unit Cost", .s "")
  , ("Stock Value", .s (toFixed2 (totalStockValue products)))
  , ("Potential Revenue", .s (toFixed2 (totalStockRevenue products)))
  , ("Potential Profit", .s (toFixed2 (totalStockRevenue products - totalStockValue products))) ]

/-- The valuation report rows: one row per product, then the pushed total. -/
def valuationReport (products : List Product) : List Row :=
  products.map valuationRow ++ [totalRow products]

/-- How a cell prints inside the CSV join (JS string coercion).  Integral
numbers print as their decimal numeral; the remaining rational display is a
model detail no report relies on, since every rational cell that reaches
the serializer with a fractional part comes from `toFixed2` already. -/
def showVal : Val → String
  | .s v => v
  | .i v => if v < 0 then "-" ++ Nat.repr v.natAbs else Nat.repr v.natAbs
  | .q v => if v.den = 1 then
      (if v.num < 0 then "-" ++ Nat.repr v.num.natAbs else Nat.repr v.num.natAbs)
    else
      (if v.num < 0 then "-" ++ Nat.repr v.num.natAbs else Nat.repr v.num.natAbs)
        ++ "/" ++ Nat.repr v.den

/-- Character-level join with a single separator character, modelling
`Array.prototype.join` with a one-character separator. -/
def joinChar (c : Char) : List (List Char) → List Char
  | [] => []
  | [x] => x
  | x :: y :: rest => x ++ c :: joinChar c (y :: rest)

/-- Character-level split on a single separator character, the inverse
reading used by the round-trip property (`String.prototype.split`). -/
def splitChar (c : Char) : List Char → List (List Char)
  | [] => [[]]
  | ch :: rest =>
    match splitChar c rest with
    | [] => [[]]
    | a :: as => if ch = c then [] :: a :: as else (ch :: a) :: as

/-- String-level join through the character model. -/
def joinStr (c : Char) (parts : List String) : String :=
  String.mk (joinChar c (parts.map String.data))

/-- String-level split through the character model. -/
def splitStr (c : Char) (st : String) : List String :=
  (splitChar c st.data).map String.mk

/-- The cells of one CSV line: `headers.map((header) => row[header])`, a
missing key printing as the empty string, as `join` renders `undefined`. -/
def rowCells (headers : List String) (r : Row) : List String :=
  headers.map (fun h => match r.lookup h with
    | some v => showVal v
    | none => "")

/-- The CSV text built by `downloadCSV`: header line from the keys of the
first row, then one line per row (the first row included), joined by
newlines.  Only reached with non-empty data (the caller guards). -/
def csvContent (data : List Row) : String :=
  match data with
  | [] => ""
  | first :: _ =>
    let headers := first.map Prod.fst
    joinStr '\n' (joinStr ',' headers :: data.map (fun r => joinStr ',' (rowCells headers r)))

/-- The file handed to the browser by a successful export. -/
structure CSVFile where
  fileName : String
  mime : String
  content : String
deriving DecidableEq

/-- The observable outcome of one `downloadCSV` call: the file produced,
if any, and the toasts emitted, in order. -/
structure ExportOutcome where
  file : Option CSVFile
  toasts : List String
deriving DecidableEq

/-- `downloadCSV`: empty data short-circuits to the error toast with no
file; otherwise the CSV text is wrapped in a `text/csv` file named
`base_today.csv` (`today` standing for the date-only part of
`new Date().toISOString()`) and the success toast fires. -/
def downloadCSV (data : List Row) (filename : String) (today : String) : ExportOutcome :=
  if data.length = 0 then
    { file := none, toasts := ["No data to export"] }
  else
    { file := some { fileName := filename ++ "_" ++ today ++ ".csv"
                   , mime := "text/csv"
                   , content := csvContent data }
    , toasts := ["Report downloaded successfully"] }

/-- The four export buttons of the page. -/
inductive ReportKind where
  | inventory
  | lowStock
  | transaction
  | valuation
deriving DecidableEq

/-- The base file name each generator passes to `downloadCSV`. -/
def baseName : ReportKind → String
  | .inventory => "inventory_report"
  | .lowStock => "low_stock_report"
  | .transaction => "transaction_report"
  | .valuation => "valuation_report"

/-- The rows each generator builds from the page snapshot. -/
def reportRows (k : ReportKind) (products : List Product)
    (txs : List StockTransaction) (fmt : ℤ → String) : List Row :=
  match k with
  | .inventory => inventoryReport products
  | .lowStock => lowStockReport products
  | .transaction => transactionReport fmt txs
  | .valuation => valuationReport products

/-- One `generateXxxReport` handler: build the rows, export them. -/
def runReport (k : ReportKind) (products : List Product)
    (txs : List StockTransaction) (fmt : ℤ → String) (today : String) : ExportOutcome :=
  downloadCSV (reportRows k products txs fmt) (baseName k) today

/-- The component state: the product and transaction snapshots held in the
two `useState` cells. -/
structure PageState where
  products : List Product
  transactions : List StockTransaction
deriving DecidableEq

/-- A user action on the page: one of the four export buttons, or the
End of Day button. -/
inductive PageAction where
  | report : ReportKind → PageAction
  | endOfDay
deriving DecidableEq

/-- The toasts of the End of Day handler: it runs the inventory export,
then the low-stock export, then unconditionally toasts success. -/
def endOfDayToasts (s : PageState) (fmt : ℤ → String) (today : String) : List String :=
  (runReport .inventory s.products s.transactions fmt today).toasts
    ++ (runReport .lowStock s.products s.transactions fmt today).toasts
    ++ ["End of Day reports generated"]

/-- Dispatch of a page action: the resulting component state together with
the toasts emitted.  No handler writes to the state cells. -/
def dispatch (a : PageAction) (s : PageState) (fmt : ℤ → String) (today : String) :
    PageState × List String :=
  match a with
  | .report k => (s, (runReport k s.products s.transactions fmt today).toasts)
  | .endOfDay => (s, endOfDayToasts s fmt today)

/-- Summary card count: products with `quantity <= reorderLevel`, with no
status filter (the Low Stock Items card). -/
def summaryLowStockCount (products : List Product) : ℕ :=
  (products.filter (fun p => p.quantity ≤ p.reorderLevel)).length

/-! ### Helper lemmas: character-level split and join -/

lemma splitChar_ne_nil (c : Char) (l : List Char) : splitChar c l ≠ [] := by
  cases l with
  | nil => simp [splitChar]
  | cons ch rest =>
    simp only [splitChar]
    cases h : splitChar c rest with
    | nil => simp
    | cons a as =>
      by_cases hc : ch = c <;> simp [hc]

lemma splitChar_of_not_mem {c : Char} {l : List Char} (h : c ∉ l) :
    splitChar c l = [l] := by
  induction l with
  | nil => rfl
  | cons ch rest ih =>
    have hne : ch ≠ c := fun e => h (e ▸ List.mem_cons_self ch rest)
    have hrest : c ∉ rest := fun m => h (List.mem_cons_of_mem ch m)
    simp [splitChar, ih hrest, hne]

lemma splitChar_append_sep {c : Char} {x t : List Char} (h : c ∉ x) :
    splitChar c (x ++ c :: t) = x :: splitChar c t := by
  induction x with
  | nil =>
    simp only [List.nil_append, splitChar]
    cases ht : splitChar c t with
    | nil => exact absurd ht (splitChar_ne_nil c t)
    | cons a as => simp
  | cons ch rest ih =>
    have hne : ch ≠ c := fun e => h (e ▸ List.mem_cons_self ch rest)
    have hrest : c ∉ rest := fun m => h (List.mem_cons_of_mem ch m)
    simp only [List.cons_append, splitChar, List.append_eq]
    rw [ih hrest]
    simp [hne]

lemma splitChar_joinChar {c : Char} :
    ∀ {parts : List (List Char)}, parts ≠ [] → (∀ p ∈ parts, c ∉ p) →
      splitChar c (joinChar c parts) = parts
  | [], h, _ => absurd rfl h
  | [x], _, hmem => by
    simp only [joinChar]
    exact splitChar_of_not_mem (hmem x (List.mem_singleton_self x))
  | x :: y :: rest, _, hmem => by
    simp only [joinChar]
    rw [splitChar_append_sep (hmem x (List.mem_cons_self _ _))]
    rw [splitChar_joinChar (List.cons_ne_nil y rest)
      (fun p hp => hmem p (List.mem_cons_of_mem x hp))]

lemma not_mem_joinChar {c sep : Char} (hne : c ≠ sep) :
    ∀ {parts : List (List Char)}, (∀ p ∈ parts, c ∉ p) → c ∉ joinChar sep parts
  | [], _ => by simp [joinChar]
  | [x], hmem => by simpa [joinChar] using hmem x (List.mem_singleton_self x)
  | x :: y :: rest, hmem => by
    simp only [joinChar, List.mem_append, List.mem_cons]
    push_neg
    refine ⟨hmem x (List.mem_cons_self _ _), hne, ?_⟩
    exact not_mem_joinChar hne (fun p hp => hmem p (List.mem_cons_of_mem x hp))

/-! ### Helper lemmas: string-level split and join, CSV cells -/

lemma joinStr_data (c : Char) (parts : List String) :
    (joinStr c parts).data = joinChar c (parts.map String.data) := rfl

lemma splitStr_joinStr {c : Char} {parts : List String} (hne : parts ≠ [])
    (hmem : ∀ p ∈ parts, c ∉ p.data) :
    splitStr c (joinStr c parts) = parts := by
  unfold splitStr
  rw [joinStr_data, splitChar_joinChar]
  · rw [List.map_map]
    exact List.map_id'' (fun s => rfl) parts
  · intro h
    exact hne (List.map_eq_nil_iff.mp h)
  · intro p hp
    obtain ⟨st, hst, rfl⟩ := List.mem_map.mp hp
    exact hmem st hst

lemma not_mem_joinStr_data {c sep : Char} (hne : c ≠ sep) {parts : List String}
    (hmem : ∀ p ∈ parts, c ∉ p.data) : c ∉ (joinStr sep parts).data := by
  rw [joinStr_data]
  refine not_mem_joinChar hne ?_
  intro p hp
  obtain ⟨st, hst, rfl⟩ := List.mem_map.mp hp
  exact hmem st hst

lemma lookup_cons_ne {k h : String} {v : Val} {t : Row} (hne : h ≠ k) :
    ((k, v) :: t).lookup h = t.lookup h := by
  have hb : (h == k) = false := beq_eq_false_iff_ne.mpr hne
  simp [List.lookup, hb]

lemma rowCells_self : ∀ (r : Row), (r.map Prod.fst).Nodup →
    rowCells (r.map Prod.fst) r = r.map (fun kv => showVal kv.2)
  | [], _ => rfl
  | (k, v) :: t, hnd => by
    rw [List.map_cons, List.nodup_cons] at hnd
    obtain ⟨hk, hnd'⟩ := hnd
    simp only [rowCells, List.map_cons]
    refine List.cons_eq_cons.mpr ⟨?_, ?_⟩
    · simp [List.lookup]
    · have step : ∀ h ∈ t.map Prod.fst,
          (match ((k, v) :: t).lookup h with | some w => showVal w | none => "")
            = (match t.lookup h with | some w => showVal w | none => "") := by
        intro h hh
        rw [lookup_cons_ne (fun e => hk (by rw [← e]; exact hh))]
      rw [List.map_congr_left step]
      exact rowCells_self t hnd'

/-! ### Helper lemmas: folds, rounding, formatting -/

lemma foldl_add_eq_sum {α : Type} (f : α → ℚ) :
    ∀ (l : List α) (a : ℚ), l.foldl (fun sum x => sum + f x) a = a + (l.map f).sum
  | [], a => by simp
  | x :: t, a => by
    simp only [List.foldl_cons, List.map_cons, List.sum_cons]
    rw [foldl_add_eq_sum f t (a + f x)]
    ring

lemma totalStockValue_eq_sum (products : List Product) :
    totalStockValue products = (products.map (fun p => (p.quantity : ℚ) * p.unitCost)).sum := by
  unfold totalStockValue
  rw [foldl_add_eq_sum]
  ring

lemma totalStockRevenue_eq_sum (products : List Product) :
    totalStockRevenue products
      = (products.map (fun p => (p.quantity : ℚ) * p.sellingPrice)).sum := by
  unfold totalStockRevenue
  rw [foldl_add_eq_sum]
  ring

lemma round2_of_mul_int {x : ℚ} {n : ℤ} (h : 100 * x = (n : ℚ)) : round2 x = n := by
  unfold round2
  rw [h]
  rw [Int.floor_int_add]
  norm_num

lemma sum_mul_int {l : List ℚ} (h : ∀ x ∈ l, ∃ n : ℤ, 100 * x = (n : ℚ)) :
    ∃ m : ℤ, 100 * l.sum = (m : ℚ) := by
  induction l with
  | nil => exact ⟨0, by simp⟩
  | cons x t ih =>
    obtain ⟨n, hn⟩ := h x (List.mem_cons_self x t)
    obtain ⟨m, hm⟩ := ih (fun y hy => h y (List.mem_cons_of_mem x hy))
    exact ⟨n + m, by push_cast; rw [List.sum_cons, mul_add, hn, hm]⟩

lemma round2_sum {l : List ℚ} (h : ∀ x ∈ l, ∃ n : ℤ, 100 * x = (n : ℚ)) :
    round2 l.sum = (l.map round2).sum := by
  induction l with
  | nil =>
    simp only [List.sum_nil, List.map_nil]
    exact round2_of_mul_int (n := 0) (by norm_num)
  | cons x t ih =>
    obtain ⟨n, hn⟩ := h x (List.mem_cons_self x t)
    obtain ⟨m, hm⟩ := sum_mul_int (fun y hy => h y (List.mem_cons_of_mem x hy))
    have hx : round2 x = n := round2_of_mul_int hn
    have ht : round2 t.sum = m := round2_of_mul_int hm
    have hxt : round2 (x + t.sum) = n + m := by
      refine round2_of_mul_int ?_
      push_cast
      rw [mul_add, hn, hm]
    rw [List.sum_cons, hxt, List.map_cons, List.sum_cons, hx,
      ← ih (fun y hy => h y (List.mem_cons_of_mem x hy)), ht]

/-- The string has a decimal point with exactly two digits after it. -/
def hasTwoDecimals (st : String) : Prop :=
  ∃ a b, st = a ++ "." ++ b ∧ b.length = 2

lemma toFixed2_hasTwoDecimals (x : ℚ) : hasTwoDecimals (toFixed2 x) :=
  ⟨(if round2 x < 0 then "-" else "") ++ Nat.repr ((round2 x).natAbs / 100),
    pad2 ((round2 x).natAbs % 100), rfl, rfl⟩

lemma filter_and_length_le {α : Type} (pa pb : α → Bool) :
    ∀ l : List α, (l.filter (fun x => pa x && pb x)).length ≤ (l.filter pa).length
  | [] => Nat.le_refl 0
  | x :: t => by
    by_cases ha : pa x
    · by_cases hb : pb x
      · simpa [List.filter_cons, ha, hb] using
          Nat.succ_le_succ (filter_and_length_le pa pb t)
      · simp only [List.filter_cons, ha, hb]
        simpa using Nat.le_succ_of_le (filter_and_length_le pa pb t)
    · simpa [List.filter_cons, ha] using filter_and_length_le pa pb t

/-! ### Concrete sample records used by witnesses and counterexamples -/

/-- Active product at half its reorder level (the concrete scenario of the
specification: quantity 5, unit cost 10, selling price 15, reorder 10). -/
def pA : Product :=
  { sku := "A1", name := "Widget", categoryName := "Tools", quantity := 5
  , unit := "pc", unitCost := 10, sellingPrice := 15, reorderLevel := 10
  , location := "L1", supplier := some "Acme", status := "Active" }

/-- Active low-stock product whose supplier is present but empty. -/
def pEmptySupplier : Product :=
  { sku := "B2", name := "Bolt", categoryName := "Parts", quantity := 1
  , unit := "pc", unitCost := 2, sellingPrice := 3, reorderLevel := 5
  , location := "L2", supplier := some "", status := "Active" }

/-- Inactive product below its reorder level. -/
def pInactiveLow : Product :=
  { sku := "C3", name := "Clip", categoryName := "Parts", quantity := 1
  , unit := "pc", unitCost := 1, sellingPrice := 2, reorderLevel := 5
  , location := "L3", supplier := none, status := "Inactive" }

/-- Product whose stock value is half a cent: quantity 1 at unit cost
`1/200` (the exact value of the JS literal `0.005`). -/
def pHalfCent : Product :=
  { sku := "H1", name := "Half", categoryName := "Edge", quantity := 1
  , unit := "pc", unitCost := 1/200, sellingPrice := 0, reorderLevel := 0
  , location := "L4", supplier := none, status := "Active" }

/-- A sample stock transaction. -/
def txA : StockTransaction :=
  { transactionDate := 1760140800000, productName := "Widget"
  , transactionType := "IN", quantity := 3, userName := "ana", reason := none }

/-! ### C1: the low-stock report -/

/-- C1 (amended): for every product collection the low-stock report has
exactly one row per product passing `status == "Active"` and
`quantity <= reorderLevel`, in collection order and no other row; each
row has `Units Below Reorder = reorderLevel - quantity`, which is zero
exactly at the threshold and positive strictly below it, and its Supplier
column is the supplier of the product, except that an absent or empty
supplier is displayed as `N/A`. -/
theorem lowStock_report_rows (ps : List Product) :
    lowStockReport ps
      = (ps.filter (fun p =>
          decide (p.status = "Active") && decide (p.quantity ≤ p.reorderLevel))).map lowStockRow
    ∧ ∀ p ∈ ps, p.status = "Active" → p.quantity ≤ p.reorderLevel →
        (lowStockRow p).lookup "Units Below Reorder" = some (.i (p.reorderLevel - p.quantity))
        ∧ 0 ≤ p.reorderLevel - p.quantity
        ∧ (p.reorderLevel - p.quantity = 0 ↔ p.quantity = p.reorderLevel)
        ∧ (p.quantity < p.reorderLevel → 0 < p.reorderLevel - p.quantity)
        ∧ ((p.supplier = none ∨ p.supplier = some "") →
            (lowStockRow p).lookup "Supplier" = some (.s "N/A"))
        ∧ (∀ sup, p.supplier = some sup → sup ≠ "" →
            (lowStockRow p).lookup "Supplier" = some (.s sup)) := by
  constructor
  · unfold lowStockReport
    congr 1
    refine List.filter_congr ?_
    intro p _
    simp [lowStockPred, Bool.and_comm]
  · intro p _ hact hq
    refine ⟨?_, by omega, by omega, by omega, ?_, ?_⟩
    · simp [lowStockRow, List.lookup]
    · intro hsup
      have : jsOr p.supplier "N/A" = "N/A" := by
        rcases hsup with h | h <;> simp [jsOr, h]
      simp [lowStockRow, List.lookup, this]
    · intro sup hsup hne
      have : jsOr p.supplier "N/A" = sup := by simp [jsOr, hsup, hne]
      simp [lowStockRow, List.lookup, this]

/-- C1 witness: the specification scenario, quantity 5 against reorder
level 10, yields one row with five units below reorder; the supplier is
shown verbatim. -/
theorem lowStock_report_rows_witness :
    (lowStockRow pA).lookup "Units Below Reorder" = some (.i 5)
    ∧ (lowStockRow pA).lookup "Supplier" = some (.s "Acme")
    ∧ lowStockReport [pA] = [lowStockRow pA] := by
  have h := (lowStock_report_rows [pA]).2 pA (List.mem_cons_self pA [])
    (by decide) (by decide)
  refine ⟨?_, ?_, ?_⟩
  · have := h.1
    simpa using this
  · exact h.2.2.2.2.2 "Acme" rfl (by decide)
  · have he := (lowStock_report_rows [pA]).1
    rw [he]
    decide

/-- C1 counterexample: a present but empty supplier string is falsy for
the JS `||` default, so the Supplier column shows `N/A` even though the
supplier is not absent, refuting the claim as stated. -/
theorem lowStock_supplier_counterexample :
    pEmptySupplier.supplier = some ""
    ∧ pEmptySupplier.status = "Active"
    ∧ pEmptySupplier.quantity ≤ pEmptySupplier.reorderLevel
    ∧ (lowStockReport [pEmptySupplier]).map (fun r => r.lookup "Supplier")
        = [some (.s "N/A")]
    ∧ Val.s "N/A" ≠ Val.s "" := by
  refine ⟨rfl, rfl, by decide, by decide, by decide⟩

/-! ### C2: the valuation report and its TOTAL row -/

/-- C2 (amended): the valuation report always has one row per product plus
the trailing TOTAL row; the TOTAL row holds the marker `TOTAL` in its SKU
column, leaves Name, Category and Unit Cost blank, and carries the
two-decimal formatting of the exact sum of `quantity * unitCost`
(respectively `quantity * sellingPrice`) over all products, with Potential
Profit formatted from exact total revenue minus exact total value; the
displayed total agrees with the sum of the per-row displayed Stock Values
whenever every per-product stock value is exact at two decimals. -/
theorem valuation_total_row (ps : List Product) :
    (valuationReport ps).length = ps.length + 1
    ∧ (valuationReport ps).getLast? = some (totalRow ps)
    ∧ (totalRow ps).lookup "SKU" = some (.s "TOTAL")
    ∧ (totalRow ps).lookup "Name" = some (.s "")
    ∧ (totalRow ps).lookup "Category" = some (.s "")
    ∧ (totalRow ps).lookup "Unit Cost" = some (.s "")
    ∧ (totalRow ps).lookup "Stock Value"
        = some (.s (toFixed2 ((ps.map (fun p => (p.quantity : ℚ) * p.unitCost)).sum)))
    ∧ (totalRow ps).lookup "Potential Revenue"
        = some (.s (toFixed2 ((ps.map (fun p => (p.quantity : ℚ) * p.sellingPrice)).sum)))
    ∧ (totalRow ps).lookup "Potential Profit"
        = some (.s (toFixed2 ((ps.map (fun p => (p.quantity : ℚ) * p.sellingPrice)).sum
            - (ps.map (fun p => (p.quantity : ℚ) * p.unitCost)).sum)))
    ∧ (∀ p ∈ ps, (valuationRow p).lookup "Stock Value"
        = some (.s (toFixed2 ((p.quantity : ℚ) * p.unitCost))))
    ∧ ((∀ p ∈ ps, ∃ n : ℤ, 100 * ((p.quantity : ℚ) * p.unitCost) = (n : ℚ)) →
        round2 ((ps.map (fun p => (p.quantity : ℚ) * p.unitCost)).sum)
          = (ps.map (fun p => round2 ((p.quantity : ℚ) * p.unitCost))).sum) := by
  refine ⟨?_, ?_, ?_, ?_, ?_, ?_, ?_, ?_, ?_, ?_, ?_⟩
  · simp [valuationReport]
  · unfold valuationReport
    rw [List.getLast?_concat]
  · simp [totalRow, List.lookup]
  · simp [totalRow, List.lookup]
  · simp [totalRow, List.lookup]
  · simp [totalRow, List.lookup]
  · simp [totalRow, List.lookup, totalStockValue_eq_sum]
  · simp [totalRow, List.lookup, totalStockRevenue_eq_sum]
  · simp [totalRow, List.lookup, totalStockValue_eq_sum, totalStockRevenue_eq_sum]
  · intro p _
    simp [valuationRow, List.lookup]
  · intro h
    have hmem : ∀ x ∈ ps.map (fun p => (p.quantity : ℚ) * p.unitCost),
        ∃ n : ℤ, 100 * x = (n : ℚ) := by
      intro x hx
      obtain ⟨p, hp, rfl⟩ := List.mem_map.mp hx
      exact h p hp
    have := round2_sum hmem
    rw [this, List.map_map]
    rfl

/-- C2 witness: on the one-product scenario of the specification the
valuation report has two rows and the TOTAL row shows Stock Value 50.00,
Potential Revenue 75.00, Potential Profit 25.00; the two-decimal exactness
hypothesis holds, so the rounded total equals the sum of rounded values. -/
theorem valuation_total_row_witness :
    (valuationReport [pA]).length = 2
    ∧ (totalRow [pA]).lookup "Stock Value" = some (.s "50.00")
    ∧ (totalRow [pA]).lookup "Potential Revenue" = some (.s "75.00")
    ∧ (totalRow [pA]).lookup "Potential Profit" = some (.s "25.00")
    ∧ round2 (([pA].map (fun p => (p.quantity : ℚ) * p.unitCost)).sum)
        = ([pA].map (fun p => round2 ((p.quantity : ℚ) * p.unitCost))).sum := by
  obtain ⟨hlen, -, -, -, -, -, hstock, hrev, hprof, -, hsum⟩ := valuation_total_row [pA]
  have e50 : (([pA].map (fun p => (p.quantity : ℚ) * p.unitCost)).sum) = 50 := by
    simp [pA]
    norm_num
  have e75 : (([pA].map (fun p => (p.quantity : ℚ) * p.sellingPrice)).sum) = 75 := by
    simp [pA]
    norm_num
  have r50 : round2 (50 : ℚ) = 5000 := by
    unfold round2
    norm_num
  have t50 : toFixed2 (50 : ℚ) = "50.00" := by
    unfold toFixed2
    rw [r50]
    decide
  have r75 : round2 (75 : ℚ) = 7500 := by
    unfold round2
    norm_num
  have t75 : toFixed2 (75 : ℚ) = "75.00" := by
    unfold toFixed2
    rw [r75]
    decide
  have r25 : round2 (25 : ℚ) = 2500 := by
    unfold round2
    norm_num
  have t25 : toFixed2 (25 : ℚ) = "25.00" := by
    unfold toFixed2
    rw [r25]
    decide
  refine ⟨hlen, ?_, ?_, ?_, ?_⟩
  · rw [hstock, e50, t50]
  · rw [hrev, e75, t75]
  · rw [hprof, e75, e50, show (75 : ℚ) - 50 = 25 by norm_num, t25]
  · exact hsum (by
      intro p hp
      rw [List.mem_singleton] at hp
      subst hp
      exact ⟨5000, by norm_num [pA]⟩)

/-- C2 counterexample: with two products worth half a cent each, every
per-product row displays Stock Value `0.01`, whose decimal sum is `0.02`,
yet the TOTAL row also displays `0.01` (the formatting of the exact sum
`1/100`); and the SKU cell of the TOTAL row holds `TOTAL`, not a blank.
This refutes both the blank-SKU clause and the displayed-sum clause of the
claim as stated. -/
theorem valuation_total_counterexample :
    (valuationReport [pHalfCent, pHalfCent]).getLast? = some (totalRow [pHalfCent, pHalfCent])
    ∧ (totalRow [pHalfCent, pHalfCent]).lookup "SKU" = some (.s "TOTAL")
    ∧ Val.s "TOTAL" ≠ Val.s ""
    ∧ (valuationReport [pHalfCent, pHalfCent]).dropLast.map (fun r => r.lookup "Stock Value")
        = [some (.s "0.01"), some (.s "0.01")]
    ∧ (totalRow [pHalfCent, pHalfCent]).lookup "Stock Value" = some (.s "0.01")
    ∧ (1 : ℚ)/100 + 1/100 ≠ 1/100 := by
  have rh : round2 ((200 : ℚ)⁻¹) = 1 := by
    unfold round2
    norm_num
  have th : toFixed2 ((200 : ℚ)⁻¹) = "0.01" := by
    unfold toFixed2
    rw [rh]
    decide
  have rv : round2 ((100 : ℚ)⁻¹) = 1 := by
    unfold round2
    norm_num
  have tv : toFixed2 ((100 : ℚ)⁻¹) = "0.01" := by
    unfold toFixed2
    rw [rv]
    decide
  have eh : ((pHalfCent.quantity : ℚ) * pHalfCent.unitCost) = (200 : ℚ)⁻¹ := by
    norm_num [pHalfCent]
  have ev : totalStockValue [pHalfCent, pHalfCent] = (100 : ℚ)⁻¹ := by
    simp [totalStockValue, pHalfCent]
    norm_num
  refine ⟨?_, by decide, by decide, ?_, ?_, by norm_num⟩
  · unfold valuationReport
    rw [List.getLast?_concat]
  · simp only [valuationReport, List.dropLast_concat, List.map_cons, List.map_nil]
    simp [valuationRow, List.lookup, eh, th]
  · simp [totalRow, List.lookup, ev, tv]

/-! ### C3: the inventory report -/

/-- C3: the inventory report has exactly one row per product, in the same
order as the collection, and every row displays
`Total Value = quantity * unitCost` formatted with exactly two decimal
places. -/
theorem inventory_report_rows (ps : List Product) :
    (inventoryReport ps).length = ps.length
    ∧ (∀ i : ℕ, (inventoryReport ps)[i]? = (ps[i]?).map inventoryRow)
    ∧ ∀ p ∈ ps,
        (inventoryRow p).lookup "Total Value"
          = some (.s (toFixed2 ((p.quantity : ℚ) * p.unitCost)))
        ∧ hasTwoDecimals (toFixed2 ((p.quantity : ℚ) * p.unitCost)) := by
  refine ⟨?_, ?_, ?_⟩
  · simp [inventoryReport]
  · intro i
    simp [inventoryReport]
  · intro p _
    exact ⟨by simp [inventoryRow, List.lookup], toFixed2_hasTwoDecimals _⟩

/-- C3 witness: on the one-product scenario the report has a single row,
placed first, and its Total Value reads `50.00`. -/
theorem inventory_report_rows_witness :
    (inventoryReport [pA]).length = 1
    ∧ (inventoryReport [pA])[0]? = some (inventoryRow pA)
    ∧ (inventoryRow pA).lookup "Total Value" = some (.s "50.00")
    ∧ hasTwoDecimals (toFixed2 ((pA.quantity : ℚ) * pA.unitCost)) := by
  obtain ⟨hlen, hidx, hrow⟩ := inventory_report_rows [pA]
  obtain ⟨hval, hdec⟩ := hrow pA (List.mem_cons_self pA [])
  have e50 : ((pA.quantity : ℚ) * pA.unitCost) = 50 := by norm_num [pA]
  have r50 : round2 (50 : ℚ) = 5000 := by
    unfold round2
    norm_num
  have t50 : toFixed2 (50 : ℚ) = "50.00" := by
    unfold toFixed2
    rw [r50]
    decide
  refine ⟨hlen, ?_, ?_, hdec⟩
  · rw [hidx 0]
    rfl
  · rw [hval, e50, t50]

/-! ### C4: the empty-data guard of the CSV export -/

/-- C4: exporting an empty row sequence produces no file, emits exactly
the `No data to export` error toast and never the success toast; and the
valuation report rows are never empty, so the valuation export always
produces a file and only the success toast. -/
theorem downloadCSV_empty_guard :
    (∀ (data : List Row) (base today : String), data = [] →
      (downloadCSV data base today).file = none
      ∧ (downloadCSV data base today).toasts = ["No data to export"]
      ∧ "Report downloaded successfully" ∉ (downloadCSV data base today).toasts)
    ∧ (∀ (ps : List Product) (txs : List StockTransaction) (fmt : ℤ → String) (today : String),
        valuationReport ps ≠ []
        ∧ (runReport .valuation ps txs fmt today).file.isSome = true
        ∧ (runReport .valuation ps txs fmt today).toasts
            = ["Report downloaded successfully"]) := by
  constructor
  · rintro data base today rfl
    refine ⟨rfl, rfl, ?_⟩
    simp [downloadCSV]
  · intro ps txs fmt today
    have hlen : (valuationReport ps).length = ps.length + 1 := by simp [valuationReport]
    have hne : ¬((valuationReport ps).length = 0) := by omega
    refine ⟨?_, ?_, ?_⟩
    · intro h
      rw [h] at hlen
      exact Nat.succ_ne_zero ps.length hlen.symm
    · simp [runReport, reportRows, downloadCSV, hne]
    · simp [runReport, reportRows, downloadCSV, hne]

/-- C4 witness: the empty export of the inventory base name yields no file
and the error toast; the valuation export over an empty catalogue still
succeeds. -/
theorem downloadCSV_empty_guard_witness :
    (downloadCSV [] "inventory_report" "2026-10-11").file = none
    ∧ (downloadCSV [] "inventory_report" "2026-10-11").toasts = ["No data to export"]
    ∧ valuationReport [] ≠ []
    ∧ (runReport .valuation [] [] (fun _ => "") "2026-10-11").toasts
        = ["Report downloaded successfully"] := by
  have h1 := downloadCSV_empty_guard.1 [] "inventory_report" "2026-10-11" rfl
  have h2 := downloadCSV_empty_guard.2 [] [] (fun _ => "") "2026-10-11"
  exact ⟨h1.1, h1.2.1, h2.1, h2.2.2⟩

/-! ### C5: CSV serialization round trip -/

/-- C5: for a non-empty sequence of uniform rows (same non-empty ordered
key list, unique keys, as JS object literals have) whose keys and shown
values contain no comma and no newline, the CSV text consists of the
header line followed by one line per row holding that row's values in key
order, and splitting on newlines and then commas recovers the header
order and all values exactly. -/
theorem csv_round_trip (first : Row) (rest : List Row)
    (hne : first ≠ [])
    (hnodup : (first.map Prod.fst).Nodup)
    (huni : ∀ r ∈ first :: rest, r.map Prod.fst = first.map Prod.fst)
    (hkeys : ∀ k ∈ first.map Prod.fst, ',' ∉ k.data ∧ '\n' ∉ k.data)
    (hvals : ∀ r ∈ first :: rest, ∀ kv ∈ r,
      ',' ∉ (showVal kv.2).data ∧ '\n' ∉ (showVal kv.2).data) :
    csvContent (first :: rest)
      = joinStr '\n' (joinStr ',' (first.map Prod.fst)
          :: (first :: rest).map (fun r => joinStr ',' (r.map (fun kv => showVal kv.2))))
    ∧ splitStr '\n' (csvContent (first :: rest))
        = joinStr ',' (first.map Prod.fst)
          :: (first :: rest).map (fun r => joinStr ',' (r.map (fun kv => showVal kv.2)))
    ∧ splitStr ',' (joinStr ',' (first.map Prod.fst)) = first.map Prod.fst
    ∧ ∀ r ∈ first :: rest,
        splitStr ',' (joinStr ',' (r.map (fun kv => showVal kv.2)))
          = r.map (fun kv => showVal kv.2) := by
  have hcells : ∀ r ∈ first :: rest,
      rowCells (first.map Prod.fst) r = r.map (fun kv => showVal kv.2) := by
    intro r hr
    rw [← huni r hr]
    refine rowCells_self r ?_
    rw [huni r hr]
    exact hnodup
  have hmapeq : (first :: rest).map (fun r => joinStr ',' (rowCells (first.map Prod.fst) r))
      = (first :: rest).map (fun r => joinStr ',' (r.map (fun kv => showVal kv.2))) := by
    refine List.map_congr_left ?_
    intro r hr
    rw [hcells r hr]
  have hcontent : csvContent (first :: rest)
      = joinStr '\n' (joinStr ',' (first.map Prod.fst)
          :: (first :: rest).map (fun r => joinStr ',' (r.map (fun kv => showVal kv.2)))) := by
    have hdef : csvContent (first :: rest)
        = joinStr '\n' (joinStr ',' (first.map Prod.fst)
            :: (first :: rest).map (fun r => joinStr ',' (rowCells (first.map Prod.fst) r))) := rfl
    rw [hdef, hmapeq]
  have hrow_ne : ∀ r ∈ first :: rest, r.map (fun kv => showVal kv.2) ≠ [] := by
    intro r hr h
    have hr0 : r = [] := List.map_eq_nil_iff.mp h
    subst hr0
    have h0 := huni [] hr
    rw [List.map_nil] at h0
    exact hne (List.map_eq_nil_iff.mp h0.symm)
  have hrow_no_comma : ∀ r ∈ first :: rest,
      ∀ v ∈ r.map (fun kv => showVal kv.2), ',' ∉ v.data := by
    intro r hr v hv
    obtain ⟨kv, hkv, rfl⟩ := List.mem_map.mp hv
    exact (hvals r hr kv hkv).1
  have hrow_no_nl : ∀ r ∈ first :: rest,
      ∀ v ∈ r.map (fun kv => showVal kv.2), '\n' ∉ v.data := by
    intro r hr v hv
    obtain ⟨kv, hkv, rfl⟩ := List.mem_map.mp hv
    exact (hvals r hr kv hkv).2
  refine ⟨hcontent, ?_, ?_, ?_⟩
  · rw [hcontent]
    refine splitStr_joinStr (List.cons_ne_nil _ _) ?_
    intro p hp
    rcases List.mem_cons.mp hp with rfl | hp
    · exact not_mem_joinStr_data (by decide)
        (fun k hk => (hkeys k hk).2)
    · obtain ⟨r, hr, rfl⟩ := List.mem_map.mp hp
      exact not_mem_joinStr_data (by decide) (hrow_no_nl r hr)
  · refine splitStr_joinStr ?_ (fun k hk => (hkeys k hk).1)
    intro h
    exact hne (List.map_eq_nil_iff.mp h)
  · intro r hr
    exact splitStr_joinStr (hrow_ne r hr) (hrow_no_comma r hr)

/-- C5 witness: a concrete two-row, two-column table serializes to
`A,B` / `x,2` / `y,3` and splits back to exactly those headers and
values. -/
theorem csv_round_trip_witness :
    csvContent [[("A", Val.s "x"), ("B", Val.i 2)], [("A", Val.s "y"), ("B", Val.i 3)]]
      = "A,B\nx,2\ny,3"
    ∧ splitStr '\n' (csvContent
        [[("A", Val.s "x"), ("B", Val.i 2)], [("A", Val.s "y"), ("B", Val.i 3)]])
      = ["A,B", "x,2", "y,3"]
    ∧ splitStr ',' "A,B" = ["A", "B"]
    ∧ splitStr ',' "x,2" = ["x", "2"] := by
  have h := csv_round_trip [("A", Val.s "x"), ("B", Val.i 2)]
    [[("A", Val.s "y"), ("B", Val.i 3)]]
    (by decide) (by decide) (by decide) (by decide) (by decide)
  refine ⟨h.1.trans (by decide), (h.2.1).trans (by decide), ?_, ?_⟩
  · have hc := h.2.2.1
    calc splitStr ',' "A,B"
        = splitStr ','
            (joinStr ',' ([[("A", Val.s "x"), ("B", Val.i 2)]].head!.map Prod.fst)) := by decide
      _ = ["A", "B"] := by
          rw [show ([[("A", Val.s "x"), ("B", Val.i 2)]].head!.map Prod.fst)
              = [("A", Val.s "x"), ("B", Val.i 2)].map Prod.fst from rfl]
          rw [hc]
          decide
  · have hd := h.2.2.2 [("A", Val.s "x"), ("B", Val.i 2)]
      (List.mem_cons_self _ _)
    calc splitStr ',' "x,2"
        = splitStr ','
            (joinStr ',' ([("A", Val.s "x"), ("B", Val.i 2)].map (fun kv => showVal kv.2))) := by
          decide
      _ = ["x", "2"] := by
          rw [hd]
          decide

/-! ### C6: exported file names and MIME type -/

/-- C6: whenever an export produces a file, its name is the base name,
an underscore, the date-only ISO string and the `.csv` suffix, with MIME
type `text/csv`; and the base name is always one of the four fixed report
identifiers. -/
theorem export_filename_shape (k : ReportKind) (ps : List Product)
    (txs : List StockTransaction) (fmt : ℤ → String) (today : String) :
    (baseName k = "inventory_report" ∨ baseName k = "low_stock_report"
      ∨ baseName k = "transaction_report" ∨ baseName k = "valuation_report")
    ∧ ∀ f, (runReport k ps txs fmt today).file = some f →
        f.fileName = baseName k ++ "_" ++ today ++ ".csv" ∧ f.mime = "text/csv" := by
  constructor
  · cases k
    · exact Or.inl rfl
    · exact Or.inr (Or.inl rfl)
    · exact Or.inr (Or.inr (Or.inl rfl))
    · exact Or.inr (Or.inr (Or.inr rfl))
  · intro f hf
    unfold runReport downloadCSV at hf
    by_cases h : (reportRows k ps txs fmt).length = 0
    · rw [if_pos h] at hf
      exact absurd hf (by simp)
    · rw [if_neg h] at hf
      simp only [Option.some.injEq] at hf
      subst hf
      exact ⟨rfl, rfl⟩

/-- C6 witness: the inventory export over the sample product on
2026-10-11 produces a file named `inventory_report_2026-10-11.csv` of
MIME type `text/csv`. -/
theorem export_filename_shape_witness :
    (runReport .inventory [pA] [] (fun _ => "") "2026-10-11").file.map CSVFile.fileName
      = some "inventory_report_2026-10-11.csv"
    ∧ (runReport .inventory [pA] [] (fun _ => "") "2026-10-11").file.map CSVFile.mime
      = some "text/csv"
    ∧ baseName .inventory = "inventory_report" := by
  have h := export_filename_shape .inventory [pA] [] (fun _ => "") "2026-10-11"
  have hsome : (runReport .inventory [pA] [] (fun _ => "") "2026-10-11").file.isSome = true := by
    simp [runReport, reportRows, inventoryReport, downloadCSV]
  obtain ⟨f, hf⟩ := Option.isSome_iff_exists.mp hsome
  obtain ⟨hname, hmime⟩ := h.2 f hf
  refine ⟨?_, ?_, rfl⟩
  · rw [hf, Option.map_some', hname]
    rfl
  · rw [hf, Option.map_some', hmime]

/-! ### C7: the summary low-stock count against the low-stock report -/

/-- C7: the Low Stock Items summary counts every product with
`quantity <= reorderLevel`, with no status filter, so it never falls below
the number of rows of the low-stock report, whose filter also demands the
Active status; on collections with an inactive low-stock product the two
differ strictly. -/
theorem summary_low_stock_count (ps : List Product) :
    summaryLowStockCount ps = (ps.filter (fun p => decide (p.quantity ≤ p.reorderLevel))).length
    ∧ (lowStockReport ps).length ≤ summaryLowStockCount ps
    ∧ ∃ qs : List Product, (lowStockReport qs).length < summaryLowStockCount qs := by
  refine ⟨rfl, ?_, ⟨[pInactiveLow], by decide⟩⟩
  unfold summaryLowStockCount lowStockReport
  rw [List.length_map]
  have hpred : ∀ p ∈ ps, lowStockPred p
      = (decide (p.quantity ≤ p.reorderLevel) && decide (p.status = "Active")) := by
    intro p _
    simp [lowStockPred]
  rw [List.filter_congr hpred]
  exact filter_and_length_le (fun p => decide (p.quantity ≤ p.reorderLevel))
    (fun p => decide (p.status = "Active")) ps

/-! ### C8: report generation and export do not touch the snapshots -/

/-- C8: every page action, the four export buttons and the End of Day
button alike, returns the component state unchanged: the product and
transaction snapshots after the handler equal those before it. -/
theorem handlers_preserve_state (a : PageAction) (s : PageState) (fmt : ℤ → String)
    (today : String) :
    (dispatch a s fmt today).1 = s
    ∧ (dispatch a s fmt today).1.products = s.products
    ∧ (dispatch a s fmt today).1.transactions = s.transactions := by
  cases a with
  | report k => exact ⟨rfl, rfl, rfl⟩
  | endOfDay => exact ⟨rfl, rfl, rfl⟩

/-! ### C9: the End of Day success toast is unconditional -/

/-- C9: the End of Day handler always ends with the
`End of Day reports generated` success toast, for every snapshot; on an
empty product collection both underlying exports take the no-data error
path and produce no file, yet the success toast still fires. -/
theorem endOfDay_toast_unconditional (s : PageState) (fmt : ℤ → String) (today : String) :
    (dispatch .endOfDay s fmt today).2.getLast? = some "End of Day reports generated"
    ∧ "End of Day reports generated" ∈ (dispatch .endOfDay s fmt today).2
    ∧ (s.products = [] →
        (runReport .inventory s.products s.transactions fmt today).file = none
        ∧ (runReport .lowStock s.products s.transactions fmt today).file = none
        ∧ (dispatch .endOfDay s fmt today).2
            = ["No data to export", "No data to export", "End of Day reports generated"]) := by
  refine ⟨?_, ?_, ?_⟩
  · show (endOfDayToasts s fmt today).getLast? = _
    unfold endOfDayToasts
    rw [List.append_assoc, List.getLast?_append, List.getLast?_append]
    rfl
  · show _ ∈ endOfDayToasts s fmt today
    unfold endOfDayToasts
    simp
  · intro hp
    refine ⟨?_, ?_, ?_⟩
    · simp [runReport, reportRows, inventoryReport, hp, downloadCSV]
    · simp [runReport, reportRows, lowStockReport, hp, downloadCSV]
    · show endOfDayToasts s fmt today = _
      unfold endOfDayToasts
      simp [runReport, reportRows, inventoryReport, lowStockReport, hp, downloadCSV]

/-- C9 witness: on the empty snapshot both exports fail with the no-data
toast and the End of Day success toast still closes the toast list. -/
theorem endOfDay_toast_unconditional_witness :
    (dispatch .endOfDay { products := [], transactions := [] } (fun _ => "") "2026-10-11").2
      = ["No data to export", "No data to export", "End of Day reports generated"]
    ∧ (runReport .inventory [] [] (fun _ => "") "2026-10-11").file = none := by
  have h := endOfDay_toast_unconditional
    { products := [], transactions := [] } (fun _ => "") "2026-10-11"
  obtain ⟨hinv, -, htoasts⟩ := h.2.2 rfl
  exact ⟨htoasts, hinv⟩

/-! ### C10: export content is a function of the snapshot alone -/

/-- C10: for the three product reports the produced CSV content does not
depend on the current date, the locale formatter or the transaction list:
two runs over equal product collections yield identical content (only the
file name varies with the date); the transaction report content likewise
depends only on the transaction list and the locale formatter, not on the
products or the date. -/
theorem export_content_deterministic (ps ps' : List Product)
    (txs txs' : List StockTransaction) (fmt fmt' : ℤ → String) (today today' : String) :
    (∀ k : ReportKind, k ≠ ReportKind.transaction →
      (runReport k ps txs fmt today).file.map CSVFile.content
        = (runReport k ps txs' fmt' today').file.map CSVFile.content)
    ∧ (runReport .transaction ps txs fmt today).file.map CSVFile.content
        = (runReport .transaction ps' txs fmt today').file.map CSVFile.content := by
  constructor
  · intro k hk
    cases k with
    | transaction => exact absurd rfl hk
    | inventory =>
      unfold runReport downloadCSV reportRows
      by_cases h : (inventoryReport ps).length = 0
      · rw [if_pos h, if_pos h]
      · rw [if_neg h, if_neg h]
        rfl
    | lowStock =>
      unfold runReport downloadCSV reportRows
      by_cases h : (lowStockReport ps).length = 0
      · rw [if_pos h, if_pos h]
      · rw [if_neg h, if_neg h]
        rfl
    | valuation =>
      unfold runReport downloadCSV reportRows
      by_cases h : (valuationReport ps).length = 0
      · rw [if_pos h, if_pos h]
      · rw [if_neg h, if_neg h]
        rfl
  · unfold runReport downloadCSV reportRows
    by_cases h : (transactionReport fmt txs).length = 0
    · rw [if_pos h, if_pos h]
    · rw [if_neg h, if_neg h]
      rfl

/-- C10 witness: the inventory export content over the sample product is
the same on two different dates and under two different locale
formatters. -/
theorem export_content_deterministic_witness :
    (runReport .inventory [pA] [txA] (fun _ => "en") "2026-10-11").file.map CSVFile.content
      = (runReport .inventory [pA] [] (fun _ => "fil-PH") "2027-01-01").file.map
          CSVFile.content := by
  exact (export_content_deterministic [pA] [pA] [txA] [] (fun _ => "en") (fun _ => "fil-PH")
    "2026-10-11" "2027-01-01").1 .inventory (by decide)
